import Mathlib

/-!
Verification of the player-movement core of the `to_be_free` repository.

The source is a Bevy application.  The slice in scope consists of
`src/features/player/{input,movement,bundles,component,mod}.rs` together
with the schedule wiring in `src/app`.  Floating-point (`f32`) arithmetic
of the source is modelled over the real numbers; `glam` vector and
quaternion operations are translated from their scalar-math definitions.
-/

/-- A 3-component vector, modelling `glam::Vec3` over the reals. -/
structure Vec3 where
  x : ℝ
  y : ℝ
  z : ℝ

namespace Vec3

/-- `Vec3::ZERO`. -/
def zero : Vec3 := ⟨0, 0, 0⟩

/-- Component-wise addition (`Vec3::add`). -/
def add (a b : Vec3) : Vec3 := ⟨a.x + b.x, a.y + b.y, a.z + b.z⟩

/-- Scalar multiplication (`Vec3 * f32`, written with the scalar first). -/
def smul (c : ℝ) (v : Vec3) : Vec3 := ⟨c * v.x, c * v.y, c * v.z⟩

/-- Dot product (`Vec3::dot`). -/
def dot (a b : Vec3) : ℝ := a.x * b.x + a.y * b.y + a.z * b.z

/-- Cross product (`Vec3::cross`). -/
def cross (a b : Vec3) : Vec3 :=
  ⟨a.y * b.z - a.z * b.y, a.z * b.x - a.x * b.z, a.x * b.y - a.y * b.x⟩

/-- `Vec3::length`: the Euclidean norm. -/
noncomputable def length (v : Vec3) : ℝ := Real.sqrt (dot v v)

/-- `Vec3::normalize_or_zero`: the unit vector in the direction of `v`,
or the zero vector when `v` has zero length (the real-number reading of
glam's "finite, positive reciprocal length" test). -/
noncomputable def normalize_or_zero (v : Vec3) : Vec3 :=
  if length v = 0 then zero else smul (1 / length v) v

end Vec3

/-- A quaternion, modelling `glam::Quat` over the reals. -/
structure Quat where
  x : ℝ
  y : ℝ
  z : ℝ
  w : ℝ

namespace Quat

/-- `Quat::IDENTITY`. -/
def identity : Quat := ⟨0, 0, 0, 1⟩

/-- `Quat::length_squared`. -/
def normSq (q : Quat) : ℝ := q.x * q.x + q.y * q.y + q.z * q.z + q.w * q.w

/-- `Quat::mul_vec3` (the `Quat * Vec3` rotation used by
`compute_velocity_from_input`), translated from glam's scalar-math
implementation: `rhs * (w*w - b.dot(b)) + b * (rhs.dot(b) * 2) + b.cross(rhs) * (w * 2)`
with `b` the vector part. glam asserts `self.is_normalized()` here, so a
unit quaternion is the operation's own precondition. -/
def mulVec3 (q : Quat) (v : Vec3) : Vec3 :=
  let b : Vec3 := ⟨q.x, q.y, q.z⟩
  ((Vec3.smul (q.w * q.w - Vec3.dot b b) v).add
    (Vec3.smul (Vec3.dot v b * 2) b)).add
    (Vec3.smul (q.w * 2) (Vec3.cross b v))

/-- `Quat::from_rotation_y`: `Quat(0, sin(angle/2), 0, cos(angle/2))`. -/
noncomputable def from_rotation_y (angle : ℝ) : Quat :=
  ⟨0, Real.sin (angle / 2), 0, Real.cos (angle / 2)⟩

end Quat

/-- `bevy::Transform`: translation, rotation and scale. -/
structure Transform where
  translation : Vec3
  rotation : Quat
  scale : Vec3

namespace Transform

/-- `Transform::from_translation`: identity rotation and unit scale. -/
def from_translation (t : Vec3) : Transform := ⟨t, Quat.identity, ⟨1, 1, 1⟩⟩

end Transform

/-- The movement components of one controllable entity, as assembled by
`PlayerBundle` in `src/features/player/bundles.rs` (the `Player` tag
carries no data and is implicit in membership of the player list):
`MoveSpeed`, `MoveInput`, `Velocity` and `Transform`. -/
structure PlayerBundle where
  speed : ℝ
  input : Vec3
  velocity : Vec3
  transform : Transform

namespace PlayerBundle

/-- `PlayerBundle::new(spawn_translation, speed_units_per_sec)`:
zero intent, zero velocity, the requested speed, and a transform whose
translation is the requested spawn position. -/
def new (spawn_translation : Vec3) (speed_units_per_sec : ℝ) : PlayerBundle :=
  { speed := speed_units_per_sec
    input := Vec3.zero
    velocity := Vec3.zero
    transform := Transform.from_translation spawn_translation }

end PlayerBundle

/-- The physical keys named by this slice. `Other` stands for every key
not bound by default (the `KeyCode` enum is much larger). -/
inductive KeyCode where
  | KeyW
  | KeyA
  | KeyS
  | KeyD
  | Space
  | ShiftLeft
  | ArrowUp
  | Other (n : Nat)
deriving DecidableEq, Repr

/-- The `PlayerKeybindings` resource of `src/features/player/input.rs`. -/
structure PlayerKeybindings where
  forward : KeyCode
  back : KeyCode
  left : KeyCode
  right : KeyCode
  up : KeyCode
  down : KeyCode
deriving DecidableEq, Repr

namespace PlayerKeybindings

/-- `PlayerKeybindings::default`: forward=W, back=S, left=A, right=D,
up=Space, down=ShiftLeft. -/
def default : PlayerKeybindings :=
  { forward := KeyCode.KeyW
    back := KeyCode.KeyS
    left := KeyCode.KeyA
    right := KeyCode.KeyD
    up := KeyCode.Space
    down := KeyCode.ShiftLeft }

end PlayerKeybindings

/-- The contribution of one pressed key to the local intent, following the
match in `read_player_input`, whose guards are tried in source order:
right, left, up, down, forward, back; an unbound key contributes nothing. -/
def keyContribution (b : PlayerKeybindings) (k : KeyCode) : Vec3 :=
  if k = b.right then ⟨1, 0, 0⟩
  else if k = b.left then ⟨-1, 0, 0⟩
  else if k = b.up then ⟨0, 1, 0⟩
  else if k = b.down then ⟨0, -1, 0⟩
  else if k = b.forward then ⟨0, 0, -1⟩
  else if k = b.back then ⟨0, 0, 1⟩
  else Vec3.zero

/-- The summation loop of `read_player_input`: starting from `Vec3::ZERO`,
each currently-pressed key adds its contribution. -/
def sumDir (b : PlayerKeybindings) (pressed : List KeyCode) : Vec3 :=
  pressed.foldl (fun d k => d.add (keyContribution b k)) Vec3.zero

/-- The intent written by `read_player_input`: the summed contributions,
normalised safely (zero stays zero). -/
noncomputable def sampledDir (b : PlayerKeybindings) (pressed : List KeyCode) : Vec3 :=
  (sumDir b pressed).normalize_or_zero

/-- `read_player_input` (system in the `Update` schedule): with the
`PlayerKeybindings` resource absent it returns without touching any
entity; otherwise it writes the sampled intent to the `MoveInput` of
every player entity. -/
noncomputable def read_player_input (pressed : List KeyCode)
    (bindings : Option PlayerKeybindings)
    (players : List PlayerBundle) : List PlayerBundle :=
  match bindings with
  | none => players
  | some b =>
    let dir := sampledDir b pressed
    players.map (fun p => { p with input := dir })

/-- The per-entity body of `compute_velocity_from_input`:
`world_dir = transform.rotation * move_input; velocity = world_dir * speed`. -/
def resolveVelocity (p : PlayerBundle) : PlayerBundle :=
  let world_dir := p.transform.rotation.mulVec3 p.input
  { p with velocity := Vec3.smul p.speed world_dir }

/-- `compute_velocity_from_input` (system in the `FixedUpdate` schedule):
applies `resolveVelocity` to every player entity. -/
def compute_velocity_from_input (players : List PlayerBundle) : List PlayerBundle :=
  players.map resolveVelocity

/-- The per-entity body of `integrate_velocity`:
`transform.translation += velocity * dt`. -/
def integratePlayer (dt : ℝ) (p : PlayerBundle) : PlayerBundle :=
  { p with transform :=
      { p.transform with
        translation := p.transform.translation.add (Vec3.smul dt p.velocity) } }

/-- `integrate_velocity` (system in the `FixedUpdate` schedule): reads the
fixed clock's step `dt` and advances every player's translation. -/
def integrate_velocity (dt : ℝ) (players : List PlayerBundle) : List PlayerBundle :=
  players.map (integratePlayer dt)

/-! ### Schedule wiring (`src/features/player/mod.rs`, `src/app`) -/

/-- Labels for the systems registered by `PlayerPlugin`. -/
inductive SystemId where
  | spawn_player
  | read_player_input
  | compute_velocity_from_input
  | integrate_velocity
deriving DecidableEq, Repr

/-- A schedule: the systems added to it, together with the explicit
ordering edges (`a` must run before `b`) declared by `.chain()`. -/
structure ScheduleConfig where
  systems : List SystemId
  edges : List (SystemId × SystemId)

/-- `add_systems(schedule, (a, b).chain())`: registers the two systems and
an explicit before-edge from `a` to `b`. -/
def chainPair (a b : SystemId) : ScheduleConfig :=
  { systems := [a, b], edges := [(a, b)] }

/-- The app configuration produced by `PlayerPlugin::build`: the default
keybindings resource, `spawn_player` at `Startup`, `read_player_input` at
`Update`, and the chained movement pipeline at `FixedUpdate`. -/
structure AppConfig where
  keybindings : Option PlayerKeybindings
  startup : List SystemId
  update : List SystemId
  fixedUpdate : ScheduleConfig

namespace PlayerPlugin

/-- `PlayerPlugin::build` (`src/features/player/mod.rs`). -/
def build : AppConfig :=
  { keybindings := some PlayerKeybindings.default
    startup := [SystemId.spawn_player]
    update := [SystemId.read_player_input]
    fixedUpdate :=
      chainPair SystemId.compute_velocity_from_input SystemId.integrate_velocity }

end PlayerPlugin

/-- The state a `FixedUpdate` run acts on: the fixed clock's step and the
player entities. -/
structure FixedWorld where
  dt : ℝ
  players : List PlayerBundle

/-- Effect of one `FixedUpdate` system on the world (systems of other
schedules leave it unchanged there). -/
def runFixedSystem : SystemId → FixedWorld → FixedWorld
  | SystemId.compute_velocity_from_input, w =>
      { w with players := compute_velocity_from_input w.players }
  | SystemId.integrate_velocity, w =>
      { w with players := integrate_velocity w.dt w.players }
  | _, w => w

/-- Running the systems of one fixed step in a given order. -/
def runOrder (order : List SystemId) (w : FixedWorld) : FixedWorld :=
  order.foldl (fun w s => runFixedSystem s w) w

/-- A scheduler may execute a schedule in any order that contains exactly
its registered systems and respects every explicit before-edge; the
position of a system in the registration list imposes no constraint. -/
def validOrder (cfg : ScheduleConfig) (order : List SystemId) : Prop :=
  order.Perm cfg.systems ∧
    ∀ e ∈ cfg.edges, order.indexOf e.1 < order.indexOf e.2

instance (cfg : ScheduleConfig) (order : List SystemId) :
    Decidable (validOrder cfg order) := by
  unfold validOrder; infer_instance

/-! ### Basic norm lemmas -/

theorem Vec3.dot_self_nonneg (v : Vec3) : 0 ≤ Vec3.dot v v := by
  have hx := mul_self_nonneg v.x
  have hy := mul_self_nonneg v.y
  have hz := mul_self_nonneg v.z
  unfold Vec3.dot
  linarith

theorem Vec3.length_nonneg (v : Vec3) : 0 ≤ v.length := Real.sqrt_nonneg _

theorem Vec3.dot_smul_self (c : ℝ) (v : Vec3) :
    Vec3.dot (Vec3.smul c v) (Vec3.smul c v) = c ^ 2 * Vec3.dot v v := by
  unfold Vec3.dot Vec3.smul
  ring

theorem Vec3.length_smul (c : ℝ) (v : Vec3) :
    (Vec3.smul c v).length = |c| * v.length := by
  unfold Vec3.length
  rw [Vec3.dot_smul_self, Real.sqrt_mul (sq_nonneg c), Real.sqrt_sq_eq_abs]

theorem Vec3.sq_length (v : Vec3) : v.length ^ 2 = Vec3.dot v v := by
  unfold Vec3.length
  exact Real.sq_sqrt (Vec3.dot_self_nonneg v)

/-! ### Claim theorems -/

/-- Claim C4: the Fixed-Step Integrator advances every player's
translation by exactly `velocity * dt`, leaves the velocity it reads
unchanged, and with `Velocity = (6,0,0)` and `dt = 1/60` the position
delta from the origin is exactly `(0.1, 0, 0)`. -/
theorem C4_integrator_advances_position (dt : ℝ) (players : List PlayerBundle)
    (p : PlayerBundle) :
    integrate_velocity dt players = players.map (integratePlayer dt) ∧
    (integratePlayer dt p).transform.translation =
      p.transform.translation.add (Vec3.smul dt p.velocity) ∧
    (integratePlayer dt p).velocity = p.velocity ∧
    (integratePlayer (1 / 60)
        { speed := 5, input := Vec3.zero, velocity := ⟨6, 0, 0⟩,
          transform := Transform.from_translation Vec3.zero }).transform.translation =
      ⟨0.1, 0, 0⟩ := by
  refine ⟨rfl, rfl, rfl, ?_⟩
  simp only [integratePlayer, Transform.from_translation, Vec3.add, Vec3.smul, Vec3.zero,
    Vec3.mk.injEq]
  norm_num

/-- Claim C5: with a zero fixed step, the Integrator is a no-op: it
returns every player entity (translation included) unchanged. -/
theorem C5_zero_dt_is_noop (players : List PlayerBundle) :
    integrate_velocity 0 players = players := by
  have h : ∀ p : PlayerBundle, integratePlayer 0 p = p := by
    rintro ⟨s, i, v, ⟨⟨tx, ty, tz⟩, r, sc⟩⟩
    simp [integratePlayer, Vec3.smul, Vec3.add]
  unfold integrate_velocity
  rw [show integratePlayer 0 = id from funext h, List.map_id]

/-- Claim C6: with the `PlayerKeybindings` resource absent, the Input
Sampler performs no writes: every player's `MoveInput` (pre-seeded or
not) is exactly what it was before the run. -/
theorem C6_missing_bindings_noop (pressed : List KeyCode)
    (players : List PlayerBundle) :
    read_player_input pressed none players = players := rfl

/-- Claim C8: `PlayerBundle::new(p, s)` yields zero intent, zero
velocity, translation `p` and speed `s`. -/
theorem C8_bundle_new (p : Vec3) (s : ℝ) :
    (PlayerBundle.new p s).input = Vec3.zero ∧
    (PlayerBundle.new p s).velocity = Vec3.zero ∧
    (PlayerBundle.new p s).transform.translation = p ∧
    (PlayerBundle.new p s).speed = s :=
  ⟨rfl, rfl, rfl, rfl⟩

/-- Claim C9: the default keybindings bind forward=W, back=S, left=A,
right=D, up=Space, down=left Shift, and `PlayerPlugin::build` inserts
exactly this default as the resource before the loop starts. -/
theorem C9_default_keybindings :
    PlayerKeybindings.default.forward = KeyCode.KeyW ∧
    PlayerKeybindings.default.back = KeyCode.KeyS ∧
    PlayerKeybindings.default.left = KeyCode.KeyA ∧
    PlayerKeybindings.default.right = KeyCode.KeyD ∧
    PlayerKeybindings.default.up = KeyCode.Space ∧
    PlayerKeybindings.default.down = KeyCode.ShiftLeft ∧
    PlayerPlugin.build.keybindings = some PlayerKeybindings.default :=
  ⟨rfl, rfl, rfl, rfl, rfl, rfl, rfl⟩

/-- Claim C10: the Integrator modifies only the translation component:
rotation, scale, velocity, input and speed all pass through unchanged. -/
theorem C10_integrator_touches_only_translation (dt : ℝ) (p : PlayerBundle)
    (players : List PlayerBundle) :
    integrate_velocity dt players = players.map (integratePlayer dt) ∧
    (integratePlayer dt p).transform.rotation = p.transform.rotation ∧
    (integratePlayer dt p).transform.scale = p.transform.scale ∧
    (integratePlayer dt p).velocity = p.velocity ∧
    (integratePlayer dt p).input = p.input ∧
    (integratePlayer dt p).speed = p.speed :=
  ⟨rfl, rfl, rfl, rfl, rfl, rfl⟩

/-- Claim C2: with bindings present, one run of the Input Sampler writes
to every player's `MoveInput` the same value: the held-key contribution
sum, normalised; and that value is either the zero vector or has length
exactly 1 (hence within the spec's 1e-6 tolerance). -/
theorem C2_input_sampler_normalised (pressed : List KeyCode)
    (b : PlayerKeybindings) (players : List PlayerBundle) :
    read_player_input pressed (some b) players =
      players.map (fun p => { p with input := sampledDir b pressed }) ∧
    sampledDir b pressed = (sumDir b pressed).normalize_or_zero ∧
    (sampledDir b pressed = Vec3.zero ∨ (sampledDir b pressed).length = 1) := by
  refine ⟨rfl, rfl, ?_⟩
  unfold sampledDir Vec3.normalize_or_zero
  by_cases h : (sumDir b pressed).length = 0
  · left; simp [h]
  · right
    rw [if_neg h, Vec3.length_smul]
    have hpos : 0 < (sumDir b pressed).length :=
      lt_of_le_of_ne (Vec3.length_nonneg _) (Ne.symm h)
    rw [abs_of_pos (by positivity)]
    field_simp

/-- Claim C3: the Velocity Resolver writes, for every player, the intent
rotated by the current orientation and scaled by the speed; at
`MoveInput = (1,0,0)`, `MoveSpeed = 10` and a 90-degree yaw rotation the
written velocity is exactly `(0, 0, -10)`. -/
theorem C3_velocity_resolver (players : List PlayerBundle) (p : PlayerBundle) :
    compute_velocity_from_input players = players.map resolveVelocity ∧
    (resolveVelocity p).velocity =
      Vec3.smul p.speed (p.transform.rotation.mulVec3 p.input) ∧
    (resolveVelocity
        { speed := 10, input := ⟨1, 0, 0⟩, velocity := Vec3.zero,
          transform := { translation := Vec3.zero,
                         rotation := Quat.from_rotation_y (Real.pi / 2),
                         scale := ⟨1, 1, 1⟩ } }).velocity = ⟨0, 0, -10⟩ := by
  refine ⟨rfl, rfl, ?_⟩
  have h2 : Real.pi / 2 / 2 = Real.pi / 4 := by ring
  simp only [resolveVelocity, Quat.from_rotation_y, h2, Real.sin_pi_div_four,
    Real.cos_pi_div_four, Quat.mulVec3, Vec3.dot, Vec3.cross, Vec3.smul, Vec3.add,
    Vec3.mk.injEq]
  have hs : Real.sqrt 2 * Real.sqrt 2 = 2 := Real.mul_self_sqrt (by norm_num)
  refine ⟨by nlinarith [hs], by nlinarith [hs], by nlinarith [hs]⟩

/-- Rotating by a quaternion scales the squared norm by the square of the
quaternion's squared norm (a polynomial identity of glam's formula). -/
theorem Quat.mulVec3_dot_self (q : Quat) (v : Vec3) :
    Vec3.dot (q.mulVec3 v) (q.mulVec3 v) = q.normSq ^ 2 * Vec3.dot v v := by
  simp only [Quat.mulVec3, Quat.normSq, Vec3.dot, Vec3.add, Vec3.smul, Vec3.cross]
  ring

/-- Claim C7: for a player whose orientation is a rotation (unit
quaternion, glam's own precondition for `mul_vec3`), whose intent has
unit length and whose speed is non-negative, the Velocity Resolver
writes a velocity of magnitude exactly `MoveSpeed`. -/
theorem C7_diagonal_speed_bound (p : PlayerBundle)
    (hq : p.transform.rotation.normSq = 1)
    (hv : p.input.length = 1) (hs : 0 ≤ p.speed) :
    (resolveVelocity p).velocity.length = p.speed := by
  have hd : Vec3.dot p.input p.input = 1 := by
    have h := Vec3.sq_length p.input
    rw [hv] at h
    simpa using h.symm
  have h1 : (p.transform.rotation.mulVec3 p.input).length = 1 := by
    unfold Vec3.length
    rw [Quat.mulVec3_dot_self, hq, hd]
    norm_num
  have hres : (resolveVelocity p).velocity =
      Vec3.smul p.speed (p.transform.rotation.mulVec3 p.input) := rfl
  rw [hres, Vec3.length_smul, h1, abs_of_nonneg hs, mul_one]

/-- Witness for C7: identity orientation, unit intent `(1,0,0)`,
speed 5: the resolved velocity has length 5. -/
theorem C7_diagonal_speed_bound_witness :
    Quat.normSq (Quat.identity) = 1 ∧
    Vec3.length ⟨1, 0, 0⟩ = 1 ∧
    (0 : ℝ) ≤ 5 ∧
    (resolveVelocity
        { speed := 5, input := ⟨1, 0, 0⟩, velocity := Vec3.zero,
          transform := { translation := Vec3.zero, rotation := Quat.identity,
                         scale := ⟨1, 1, 1⟩ } }).velocity.length = 5 :=
  ⟨by norm_num [Quat.normSq, Quat.identity],
   by simp [Vec3.length, Vec3.dot],
   by norm_num,
   C7_diagonal_speed_bound _ (by norm_num [Quat.normSq, Quat.identity])
     (by simp [Vec3.length, Vec3.dot]) (by norm_num)⟩

/-- A list permutation-equal to a two-element list is one of its two
arrangements. -/
theorem perm_pair_cases {α : Type} {a b : α} {l : List α} (h : l.Perm [a, b]) :
    l = [a, b] ∨ l = [b, a] := by
  cases l with
  | nil => exact absurd h.length_eq (by simp)
  | cons x t =>
    cases t with
    | nil => exact absurd h.length_eq (by simp)
    | cons y t2 =>
      cases t2 with
      | cons z t3 => exact absurd h.length_eq (by simp)
      | nil =>
        have hx : x ∈ [a, b] := h.mem_iff.mp (by simp)
        rcases (by simpa using hx : x = a ∨ x = b) with hxa | hxb
        · subst hxa
          have h2 : [y].Perm [b] := (List.perm_cons x).mp h
          have : y = b := by simpa [List.perm_singleton] using h2
          subst this
          exact Or.inl rfl
        · have hba : ([a, b] : List α).Perm [b, a] := List.Perm.swap b a []
          rw [hxb] at h
          have h2 : [y].Perm [a] := (List.perm_cons b).mp (h.trans hba)
          have hya : y = a := by simpa [List.perm_singleton] using h2
          rw [hxb, hya]
          exact Or.inr rfl

/-- Claim C1: any execution order of `PlayerPlugin`'s `FixedUpdate`
schedule that respects the explicitly constructed `.chain()` edge — the
only constraint, independent of registration order — must be Resolver
first, then Integrator; consequently one fixed step always integrates
the velocity resolved from this step's own input, never a stale one. -/
theorem C1_resolver_before_integrator (order : List SystemId) (w : FixedWorld)
    (h : validOrder PlayerPlugin.build.fixedUpdate order) :
    order = [SystemId.compute_velocity_from_input, SystemId.integrate_velocity] ∧
    runOrder order w =
      { w with players :=
          w.players.map (fun p => integratePlayer w.dt (resolveVelocity p)) } := by
  obtain ⟨hperm, hedges⟩ := h
  have horder :
      order = [SystemId.compute_velocity_from_input, SystemId.integrate_velocity] := by
    rcases perm_pair_cases hperm with h1 | h1
    · exact h1
    · exfalso
      have hlt := hedges
        (SystemId.compute_velocity_from_input, SystemId.integrate_velocity)
        (by simp [PlayerPlugin.build, chainPair])
      rw [h1] at hlt
      exact absurd hlt (by decide)
  refine ⟨horder, ?_⟩
  subst horder
  simp [runOrder, runFixedSystem, compute_velocity_from_input, integrate_velocity,
    List.map_map, Function.comp]

/-- Witness for C1: the chained order is valid for the built schedule,
and running it on a concrete world produces the resolved-then-integrated
players. -/
theorem C1_resolver_before_integrator_witness :
    validOrder PlayerPlugin.build.fixedUpdate
      [SystemId.compute_velocity_from_input, SystemId.integrate_velocity] ∧
    ([SystemId.compute_velocity_from_input, SystemId.integrate_velocity] =
        [SystemId.compute_velocity_from_input, SystemId.integrate_velocity] ∧
      runOrder [SystemId.compute_velocity_from_input, SystemId.integrate_velocity]
          ⟨0, []⟩ = (⟨0, []⟩ : FixedWorld)) :=
  ⟨by decide,
   C1_resolver_before_integrator
     [SystemId.compute_velocity_from_input, SystemId.integrate_velocity]
     ⟨0, []⟩ (by decide)⟩
